import Mathlib

/-!
Verification of the URL-preview codec in
`crates/ruma-events/src/room/message/url_preview.rs`.

The Rust code is a serde-driven codec: `UrlPreview` and `PreviewImage` are
plain structs whose fields carry `rename` / `alias` / `skip_serializing_if`
attributes, `PreviewImage` is `#[serde(flatten)]`-merged into `UrlPreview`,
and the image source is an externally tagged enum `PreviewImageSource`
flattened into `PreviewImage`.  We embed the JSON wire form as an ordered
association list of key/value pairs and translate the serde-derived
serializer and deserializer (including flat-map buffering, alias matching,
duplicate-field detection and the flattened-`Option` emptiness check) into
executable Lean functions.
-/

namespace RumaUrlPreview

/-- A JSON-like wire value.  Numbers are restricted to the non-negative
integers actually used by the codec (ruma's `UInt`). -/
inductive Value where
  | null : Value
  | str : String → Value
  | num : Nat → Value
  | obj : List (String × Value) → Value

/-- A JSON object as it appears on the wire: an ordered list of entries. -/
abbrev JsonObject := List (String × Value)

/-- Modelled from the spec: `EncryptedFile` lives in `ruma-common`, outside
the visible source.  The spec describes it as "an opaque content-reference
string plus an opaque encryption descriptor (key material, initialization
vector, content hashes, a protocol version tag) treated as an atomic
structure by this core — never introspected, only carried through".  We model
it as a content reference together with an uninterpreted descriptor payload. -/
structure EncryptedFile where
  url : String
  descriptor : String

/-- Modelled from the spec: the wire form of an `EncryptedFile`, an inline
JSON object carried atomically under the encrypted-reference key. -/
def EncryptedFile.encode (f : EncryptedFile) : Value :=
  Value.obj [("url", Value.str f.url), ("descriptor", Value.str f.descriptor)]

/-- Modelled from the spec: structural validation of an `EncryptedFile` wire
value; any other shape is a malformed nested structure. -/
def decodeEncryptedFile : Value → Option EncryptedFile
  | Value.obj [("url", Value.str u), ("descriptor", Value.str d)] => some ⟨u, d⟩
  | _ => none

/-- The Source of the PreviewImage (`enum PreviewImageSource`).
`EncryptedImage` is renamed to `beeper:image:encryption` on the wire;
`Url` is renamed to `og:image` with alias `og:image:url`. -/
inductive PreviewImageSource where
  | encryptedImage : EncryptedFile → PreviewImageSource
  | url : String → PreviewImageSource

/-- Metadata and source of an `UrlPreview` image (`struct PreviewImage`). -/
structure PreviewImage where
  source : PreviewImageSource
  size : Option Nat
  width : Option Nat
  height : Option Nat
  mimetype : Option String

/-- Preview information for a URL matched in the message text
(`struct UrlPreview`).  Field `matched_url` is an `Option<String>` carrying
serde alias `matrix:matched_url` and no rename and no skip attribute. -/
structure UrlPreview where
  matched_url : Option String
  url : Option String
  title : Option String
  description : Option String
  image : Option PreviewImage

/-- `PreviewImage::with_image`. -/
def PreviewImage.with_image (source : PreviewImageSource) : PreviewImage :=
  ⟨source, none, none, none, none⟩

/-- `PreviewImage::plain`. -/
def PreviewImage.plain (u : String) : PreviewImage :=
  PreviewImage.with_image (PreviewImageSource.url u)

/-- `PreviewImage::encrypted`. -/
def PreviewImage.encrypted (f : EncryptedFile) : PreviewImage :=
  PreviewImage.with_image (PreviewImageSource.encryptedImage f)

/-- The constructor `UrlPreview::matched_url` (named `matchedUrl` here since
the structure field of the same name already takes `UrlPreview.matched_url`). -/
def UrlPreview.matchedUrl (matched : String) : UrlPreview :=
  ⟨some matched, none, none, none, none⟩

/-- `UrlPreview::canonical_url`. -/
def UrlPreview.canonical_url (u : String) : UrlPreview :=
  ⟨none, some u, none, none, none⟩

/-- `UrlPreview::contains_preview`, including the duplicated
`self.image.is_some()` disjunct of the source. -/
def UrlPreview.contains_preview (p : UrlPreview) : Bool :=
  p.url.isSome || p.title.isSome || p.description.isSome || p.image.isSome
    || p.image.isSome

/-! ## Serialization

serde serializes struct fields in declaration order; a field with
`skip_serializing_if = "Option::is_none"` contributes no entry when `None`,
while `matched_url` (no skip attribute) is always emitted, as JSON `null`
when `None`.  A flattened field contributes its own entries at the same
object level; a flattened externally tagged enum contributes one entry whose
key is the variant name. -/

/-- One optional field with `skip_serializing_if = "Option::is_none"`. -/
def optField (key : String) : Option Value → JsonObject
  | none => []
  | some v => [(key, v)]

/-- Wire entry of a `PreviewImageSource` (externally tagged enum). -/
def PreviewImageSource.encode : PreviewImageSource → String × Value
  | PreviewImageSource.encryptedImage f => ("beeper:image:encryption", f.encode)
  | PreviewImageSource.url u => ("og:image", Value.str u)

/-- Serialization of `PreviewImage`: the flattened source entry followed by
the optional metadata fields in declaration order. -/
def PreviewImage.encode (im : PreviewImage) : JsonObject :=
  im.source.encode ::
    (optField "matrix:image:size" (im.size.map Value.num) ++
     optField "og:image:width" (im.width.map Value.num) ++
     optField "og:image:height" (im.height.map Value.num) ++
     optField "og:image:type" (im.mimetype.map Value.str))

/-- Wire value of the `matched_url` field: always emitted, `null` when absent. -/
def encodeOptStrField : Option String → Value
  | none => Value.null
  | some s => Value.str s

/-- Serialization of `UrlPreview`: `matched_url` under its un-renamed field
name, the renamed optional fields, then the flattened image (omitted
entirely when `None`). -/
def UrlPreview.encode (p : UrlPreview) : JsonObject :=
  ("matched_url", encodeOptStrField p.matched_url) ::
    (optField "og:url" (p.url.map Value.str) ++
     optField "og:title" (p.title.map Value.str) ++
     optField "og:description" (p.description.map Value.str) ++
     (match p.image with
      | none => []
      | some im => im.encode))

/-- The keys emitted by `UrlPreview.encode`. -/
def encodeKeys (p : UrlPreview) : List String :=
  (p.encode).map Prod.fst

/-- The key list contributed by one optional field: present exactly when the
field is populated. -/
def keysIf (b : Bool) (k : String) : List String :=
  if b then [k] else []

/-! ## Deserialization

The serde-derived deserializer for a struct containing a flattened field
walks the object entries in order: entries whose key matches a declared
field name or one of its aliases are consumed into that field (a second
entry for the same logical field is a duplicate-field error), every other
entry is buffered.  Afterwards the flattened field is deserialized from the
buffer; a flattened `Option` is `None` exactly when the buffer is empty.  A
flattened externally tagged enum takes the first buffered entry whose key is
a variant name or variant alias; if none exists the deserializer fails. -/

/-- Typed decode errors surfaced by the deserializer. -/
inductive DecodeError where
  | duplicateField : String → DecodeError
  | typeMismatch : String → DecodeError
  | noVariantFound : DecodeError
  | malformedEncryptedImage : DecodeError

/-- Deserialize an `Option<String>` field value. -/
def decodeOptString (fieldName : String) : Value → Except DecodeError (Option String)
  | Value.null => Except.ok none
  | Value.str s => Except.ok (some s)
  | _ => Except.error (DecodeError.typeMismatch fieldName)

/-- Deserialize an `Option<UInt>` field value. -/
def decodeOptNat (fieldName : String) : Value → Except DecodeError (Option Nat)
  | Value.null => Except.ok none
  | Value.num n => Except.ok (some n)
  | _ => Except.error (DecodeError.typeMismatch fieldName)

/-- Deserialize the flattened `PreviewImageSource` from the buffered
entries: the first entry whose key is a variant name (`beeper:image:encryption`,
`og:image`) or variant alias (`og:image:url`) decides the variant. -/
def decodePreviewImageSource : JsonObject → Except DecodeError PreviewImageSource
  | [] => Except.error DecodeError.noVariantFound
  | (k, v) :: rest =>
    if k = "beeper:image:encryption" then
      match decodeEncryptedFile v with
      | some f => Except.ok (PreviewImageSource.encryptedImage f)
      | none => Except.error DecodeError.malformedEncryptedImage
    else if k = "og:image" ∨ k = "og:image:url" then
      match v with
      | Value.str u => Except.ok (PreviewImageSource.url u)
      | _ => Except.error (DecodeError.typeMismatch "og:image")
    else
      decodePreviewImageSource rest

/-- The map-visitor loop of `PreviewImage`: named metadata fields (with the
`og:image:size` alias for size) are consumed in entry order, everything else
is buffered for the flattened source. -/
def decodePreviewImageLoop :
    JsonObject → Option (Option Nat) → Option (Option Nat) → Option (Option Nat) →
    Option (Option String) → JsonObject → Except DecodeError PreviewImage
  | [], sz, w, h, mt, buf =>
    match decodePreviewImageSource buf with
    | Except.error e => Except.error e
    | Except.ok src =>
      Except.ok ⟨src, sz.getD none, w.getD none, h.getD none, mt.getD none⟩
  | (k, v) :: rest, sz, w, h, mt, buf =>
    if k = "matrix:image:size" ∨ k = "og:image:size" then
      match sz with
      | some _ => Except.error (DecodeError.duplicateField "matrix:image:size")
      | none =>
        match decodeOptNat "matrix:image:size" v with
        | Except.error e => Except.error e
        | Except.ok n => decodePreviewImageLoop rest (some n) w h mt buf
    else if k = "og:image:width" then
      match w with
      | some _ => Except.error (DecodeError.duplicateField "og:image:width")
      | none =>
        match decodeOptNat "og:image:width" v with
        | Except.error e => Except.error e
        | Except.ok n => decodePreviewImageLoop rest sz (some n) h mt buf
    else if k = "og:image:height" then
      match h with
      | some _ => Except.error (DecodeError.duplicateField "og:image:height")
      | none =>
        match decodeOptNat "og:image:height" v with
        | Except.error e => Except.error e
        | Except.ok n => decodePreviewImageLoop rest sz w (some n) mt buf
    else if k = "og:image:type" then
      match mt with
      | some _ => Except.error (DecodeError.duplicateField "og:image:type")
      | none =>
        match decodeOptString "og:image:type" v with
        | Except.error e => Except.error e
        | Except.ok s => decodePreviewImageLoop rest sz w h (some s) buf
    else
      decodePreviewImageLoop rest sz w h mt (buf ++ [(k, v)])

/-- Deserialization of `PreviewImage` from a flat object. -/
def PreviewImage.decode (o : JsonObject) : Except DecodeError PreviewImage :=
  decodePreviewImageLoop o none none none none []

/-- The map-visitor loop of `UrlPreview`: named fields (`matched_url` with its
`matrix:matched_url` alias, `og:url`, `og:title`, `og:description`) are
consumed in entry order, everything else is buffered; at the end the
flattened `Option<PreviewImage>` is `None` when the buffer is empty and is
otherwise deserialized from the buffer. -/
def decodeUrlPreviewLoop :
    JsonObject → Option (Option String) → Option (Option String) →
    Option (Option String) → Option (Option String) → JsonObject →
    Except DecodeError UrlPreview
  | [], mu, u, t, d, buf =>
    if buf.isEmpty then
      Except.ok ⟨mu.getD none, u.getD none, t.getD none, d.getD none, none⟩
    else
      match decodePreviewImageLoop buf none none none none [] with
      | Except.error e => Except.error e
      | Except.ok im =>
        Except.ok ⟨mu.getD none, u.getD none, t.getD none, d.getD none, some im⟩
  | (k, v) :: rest, mu, u, t, d, buf =>
    if k = "matched_url" ∨ k = "matrix:matched_url" then
      match mu with
      | some _ => Except.error (DecodeError.duplicateField "matched_url")
      | none =>
        match decodeOptString "matched_url" v with
        | Except.error e => Except.error e
        | Except.ok s => decodeUrlPreviewLoop rest (some s) u t d buf
    else if k = "og:url" then
      match u with
      | some _ => Except.error (DecodeError.duplicateField "og:url")
      | none =>
        match decodeOptString "og:url" v with
        | Except.error e => Except.error e
        | Except.ok s => decodeUrlPreviewLoop rest mu (some s) t d buf
    else if k = "og:title" then
      match t with
      | some _ => Except.error (DecodeError.duplicateField "og:title")
      | none =>
        match decodeOptString "og:title" v with
        | Except.error e => Except.error e
        | Except.ok s => decodeUrlPreviewLoop rest mu u (some s) d buf
    else if k = "og:description" then
      match d with
      | some _ => Except.error (DecodeError.duplicateField "og:description")
      | none =>
        match decodeOptString "og:description" v with
        | Except.error e => Except.error e
        | Except.ok s => decodeUrlPreviewLoop rest mu u t (some s) buf
    else
      decodeUrlPreviewLoop rest mu u t d (buf ++ [(k, v)])

/-- Deserialization of `UrlPreview` from a flat object. -/
def UrlPreview.decode (o : JsonObject) : Except DecodeError UrlPreview :=
  decodeUrlPreviewLoop o none none none none []

/-! ## Helper lemmas -/

theorem contains_append (l₁ l₂ : List String) (x : String) :
    (l₁ ++ l₂).contains x = (l₁.contains x || l₂.contains x) := by
  induction l₁ with
  | nil => simp [List.contains]
  | cons a l ih => simp [ih, Bool.or_assoc]

theorem keysIf_contains (b : Bool) (k x : String) :
    (keysIf b k).contains x = (b && (x == k)) := by
  cases b <;> simp [keysIf, List.contains, Bool.beq_eq_decide_eq]

theorem mem_keysIf (x k : String) (b : Bool) :
    x ∈ keysIf b k ↔ (b = true ∧ x = k) := by
  cases b <;> simp [keysIf]

theorem optField_keys (k : String) (o : Option Value) :
    (optField k o).map Prod.fst = keysIf o.isSome k := by
  cases o <;> rfl

/-- Closed form of the key list emitted for a `UrlPreview`. -/
theorem encodeKeys_eq (p : UrlPreview) :
    encodeKeys p =
      "matched_url" ::
        (keysIf p.url.isSome "og:url" ++ keysIf p.title.isSome "og:title" ++
         keysIf p.description.isSome "og:description" ++
         (match p.image with
          | none => []
          | some im =>
            (im.source.encode).fst ::
              (keysIf im.size.isSome "matrix:image:size" ++
               keysIf im.width.isSome "og:image:width" ++
               keysIf im.height.isSome "og:image:height" ++
               keysIf im.mimetype.isSome "og:image:type"))) := by
  obtain ⟨mu, u, t, d, im⟩ := p
  cases im with
  | none => cases u <;> cases t <;> cases d <;> rfl
  | some im =>
    obtain ⟨src, sz, w, h, mt⟩ := im
    cases u <;> cases t <;> cases d <;> cases sz <;> cases w <;> cases h <;>
      cases mt <;> rfl

/-- The wire key of each image-source variant. -/
theorem source_encode_fst (src : PreviewImageSource) :
    (src.encode).fst =
      (match src with
       | PreviewImageSource.encryptedImage _ => "beeper:image:encryption"
       | PreviewImageSource.url _ => "og:image") := by
  cases src <;> rfl

/-! ## Claim theorems -/

/-- C1: `contains_preview` returns `false` (the homeserver-fallback decision)
iff the canonical URL, the title, the description and the preview image are
all absent; an entry carrying only a `matched_url` always triggers fallback,
and an entry with a title, or with an image, does not. -/
theorem contains_preview_false_iff_all_absent :
    (∀ p : UrlPreview, p.contains_preview = false ↔
      (p.url = none ∧ p.title = none ∧ p.description = none ∧ p.image = none)) ∧
    (∀ s : String, (UrlPreview.matchedUrl s).contains_preview = false) ∧
    (∀ (mu u d : Option String) (t : String) (im : Option PreviewImage),
      UrlPreview.contains_preview ⟨mu, u, some t, d, im⟩ = true) ∧
    (∀ (mu u t d : Option String) (im : PreviewImage),
      UrlPreview.contains_preview ⟨mu, u, t, d, some im⟩ = true) := by
  refine ⟨?_, ?_, ?_, ?_⟩
  · intro p
    obtain ⟨mu, u, t, d, im⟩ := p
    cases u <;> cases t <;> cases d <;> cases im <;>
      simp [UrlPreview.contains_preview]
  · intro s; rfl
  · intro mu u d t im; simp [UrlPreview.contains_preview]
  · intro mu u t d im; simp [UrlPreview.contains_preview]

/-- C2: decoding the object produced by encoding any `UrlPreview` value
yields the original value. -/
theorem decode_encode_roundtrip (p : UrlPreview) :
    UrlPreview.decode (UrlPreview.encode p) = Except.ok p := by
  obtain ⟨mu, u, t, d, im⟩ := p
  rcases im with _ | ⟨f | us, sz, w, h, mt⟩ <;>
    cases mu <;> cases u <;> cases t <;> cases d <;>
    first
    | rfl
    | (cases sz <;> cases w <;> cases h <;> cases mt <;> rfl)

/-- C4 counterexample: an object carrying the plain-reference key before the
encrypted-reference key decodes to the `Url` variant — the encrypted
reference, not the plain one, is discarded, so decoding does not yield the
`Encrypted` variant regardless of key order. -/
theorem decode_plain_key_first_wins :
    UrlPreview.decode
      [("og:image", Value.str "mxc://host/plain"),
       ("beeper:image:encryption", EncryptedFile.encode ⟨"mxc://host/enc", "desc"⟩)] =
      Except.ok ⟨none, none, none, none, some (PreviewImage.plain "mxc://host/plain")⟩ :=
  rfl

/-- C4 amended: decoding never fails when both image-source keys are present;
the first of the two keys in object order decides the variant.  When the
encrypted-reference key precedes the plain one the result is `Encrypted`
with the plain reference discarded, and symmetrically. -/
theorem image_source_first_key_wins :
    (∀ (f : EncryptedFile) (u : String),
      UrlPreview.decode
        [("beeper:image:encryption", f.encode), ("og:image", Value.str u)] =
        Except.ok ⟨none, none, none, none, some (PreviewImage.encrypted f)⟩) ∧
    (∀ (f : EncryptedFile) (u : String),
      UrlPreview.decode
        [("og:image", Value.str u), ("beeper:image:encryption", f.encode)] =
        Except.ok ⟨none, none, none, none, some (PreviewImage.plain u)⟩) ∧
    (∀ (f : EncryptedFile) (u : String) (rest : JsonObject),
      decodePreviewImageSource
        (("beeper:image:encryption", f.encode) :: ("og:image", Value.str u) :: rest) =
        Except.ok (PreviewImageSource.encryptedImage f)) ∧
    (∀ (f : EncryptedFile) (u : String) (rest : JsonObject),
      decodePreviewImageSource
        (("og:image", Value.str u) :: ("beeper:image:encryption", f.encode) :: rest) =
        Except.ok (PreviewImageSource.url u)) := by
  refine ⟨?_, ?_, ?_, ?_⟩ <;> intro f u <;> first
    | (obtain ⟨fu, fd⟩ := f; rfl)
    | (intro rest; obtain ⟨fu, fd⟩ := f; rfl)

/-- C8: each accepted legacy alias key decodes to the same structured value
as the canonical key spelling: `og:image:url` behaves like `og:image`,
`og:image:size` like `matrix:image:size`, and `matrix:matched_url` like the
emitted `matched_url` spelling. -/
theorem alias_decode_equivalence :
    (∀ u : String, UrlPreview.decode [("og:image:url", Value.str u)] =
        UrlPreview.decode [("og:image", Value.str u)]) ∧
    (∀ (u : String) (n : Nat),
      UrlPreview.decode [("og:image", Value.str u), ("og:image:size", Value.num n)] =
        UrlPreview.decode [("og:image", Value.str u), ("matrix:image:size", Value.num n)]) ∧
    (∀ (s u : String) (n : Nat),
      UrlPreview.decode
        [("matrix:matched_url", Value.str s), ("og:image:url", Value.str u),
         ("og:image:size", Value.num n)] =
        UrlPreview.decode
          [("matched_url", Value.str s), ("og:image", Value.str u),
           ("matrix:image:size", Value.num n)]) := by
  refine ⟨fun u => rfl, fun u n => rfl, fun s u n => rfl⟩

/-- C9: the `source` field of `PreviewImage` is mandatory, so image presence
coincides with an image source being present, and no decoded value can carry
image metadata without a source: an object with metadata keys but no source
key fails to decode. -/
theorem image_source_mandatory :
    (∀ im : PreviewImage, ∃ src : PreviewImageSource, im.source = src) ∧
    (∀ p : UrlPreview, (p.image.map PreviewImage.source).isSome = p.image.isSome) ∧
    (∀ n : Nat, UrlPreview.decode [("og:image:width", Value.num n)] =
      Except.error DecodeError.noVariantFound) ∧
    (∀ (n : Nat) (s : String),
      UrlPreview.decode
        [("matrix:image:size", Value.num n), ("og:image:type", Value.str s)] =
        Except.error DecodeError.noVariantFound) := by
  refine ⟨fun im => ⟨im.source, rfl⟩, ?_, fun n => rfl, fun n s => rfl⟩
  intro p
  obtain ⟨mu, u, t, d, im⟩ := p
  cases im <;> rfl

/-- C10: the public constructors fix all non-argument fields to absent:
`UrlPreview::matched_url` populates only `matched_url` (so
`contains_preview` is `false`), `UrlPreview::canonical_url` populates only
`url` and leaves `matched_url` absent, and `PreviewImage::plain` /
`PreviewImage::encrypted` leave all metadata fields absent. -/
theorem constructors_fix_fields :
    (∀ s : String, UrlPreview.matchedUrl s = ⟨some s, none, none, none, none⟩) ∧
    (∀ s : String, (UrlPreview.matchedUrl s).contains_preview = false) ∧
    (∀ u : String, UrlPreview.canonical_url u = ⟨none, some u, none, none, none⟩) ∧
    (∀ u : String, (UrlPreview.canonical_url u).matched_url = none) ∧
    (∀ u : String,
      PreviewImage.plain u = ⟨PreviewImageSource.url u, none, none, none, none⟩) ∧
    (∀ f : EncryptedFile,
      PreviewImage.encrypted f =
        ⟨PreviewImageSource.encryptedImage f, none, none, none, none⟩) :=
  ⟨fun _ => rfl, fun _ => rfl, fun _ => rfl, fun _ => rfl, fun _ => rfl, fun _ => rfl⟩

/-- Invariant of the `UrlPreview` visitor loop: while no `matched_url` (or
alias) entry has been consumed and none occurs among the remaining entries,
a successful decode leaves `matched_url` absent. -/
theorem decodeLoop_matched_url_invariant (entries : JsonObject) :
    ∀ (u t d : Option (Option String)) (buf : JsonObject) (p : UrlPreview),
      "matched_url" ∉ entries.map Prod.fst →
      "matrix:matched_url" ∉ entries.map Prod.fst →
      decodeUrlPreviewLoop entries none u t d buf = Except.ok p →
      p.matched_url = none := by
  induction entries with
  | nil =>
    intro u t d buf p _ _ hok
    simp only [decodeUrlPreviewLoop] at hok
    split at hok
    · injection hok with h; subst h; rfl
    · split at hok
      · exact Except.noConfusion hok
      · injection hok with h; subst h; rfl
  | cons head tail ih =>
    intro u t d buf p h1 h2 hok
    obtain ⟨k, v⟩ := head
    simp only [List.map_cons, List.mem_cons, not_or] at h1 h2
    obtain ⟨hk1, h1⟩ := h1
    obtain ⟨hk2, h2⟩ := h2
    simp only [decodeUrlPreviewLoop] at hok
    have hcond : ¬(k = "matched_url" ∨ k = "matrix:matched_url") := by
      rintro (rfl | rfl)
      · exact hk1 rfl
      · exact hk2 rfl
    rw [if_neg hcond] at hok
    repeat' split at hok
    all_goals first
      | exact Except.noConfusion hok
      | exact ih _ _ _ _ _ h1 h2 hok

/-- C3 counterexample: decoding an object with no `matched_url` entry does
not fail with a required-field error; it succeeds with `matched_url`
absent. -/
theorem decode_without_matched_url_succeeds :
    UrlPreview.decode [("og:title", Value.str "Matrix.org")] =
      Except.ok ⟨none, none, some "Matrix.org", none, none⟩ :=
  rfl

/-- C3 amended: `matched_url` is an optional field in this revision, so its
absence never makes decode fail: the empty object decodes to the all-absent
record, and any successful decode of an object lacking both `matched_url`
spellings yields `matched_url = none`. -/
theorem matched_url_absence_not_fatal :
    (UrlPreview.decode [] = Except.ok ⟨none, none, none, none, none⟩) ∧
    (∀ (o : JsonObject) (p : UrlPreview),
      "matched_url" ∉ o.map Prod.fst →
      "matrix:matched_url" ∉ o.map Prod.fst →
      UrlPreview.decode o = Except.ok p →
      p.matched_url = none) := by
  refine ⟨rfl, ?_⟩
  intro o p h1 h2 hok
  exact decodeLoop_matched_url_invariant o _ _ _ _ _ h1 h2 hok

/-- Witness for C3 amended at a concrete input. -/
theorem matched_url_absence_not_fatal_witness :
    UrlPreview.decode [("og:title", Value.str "Matrix.org")] =
      Except.ok ⟨none, none, some "Matrix.org", none, none⟩ ∧
    (⟨none, none, some "Matrix.org", none, none⟩ : UrlPreview).matched_url = none :=
  ⟨rfl,
   matched_url_absence_not_fatal.2 [("og:title", Value.str "Matrix.org")]
     ⟨none, none, some "Matrix.org", none, none⟩ (by decide) (by decide) rfl⟩

/-- C5: encode never emits both the plain image-reference key `og:image` and
the encrypted image-reference key `beeper:image:encryption` in one object:
exactly the populated variant's key is emitted and no key of the other
variant. -/
theorem encode_variant_exclusive :
    (∀ p : UrlPreview,
      (encodeKeys p).contains "og:image" = false ∨
      (encodeKeys p).contains "beeper:image:encryption" = false) ∧
    (∀ (mu u t d : Option String) (sz w h : Option Nat) (mt : Option String)
        (uri : String),
      (encodeKeys ⟨mu, u, t, d, some ⟨PreviewImageSource.url uri, sz, w, h, mt⟩⟩).contains
          "og:image" = true ∧
      (encodeKeys ⟨mu, u, t, d, some ⟨PreviewImageSource.url uri, sz, w, h, mt⟩⟩).contains
          "beeper:image:encryption" = false) ∧
    (∀ (mu u t d : Option String) (sz w h : Option Nat) (mt : Option String)
        (f : EncryptedFile),
      (encodeKeys ⟨mu, u, t, d, some ⟨PreviewImageSource.encryptedImage f, sz, w, h, mt⟩⟩).contains
          "beeper:image:encryption" = true ∧
      (encodeKeys ⟨mu, u, t, d, some ⟨PreviewImageSource.encryptedImage f, sz, w, h, mt⟩⟩).contains
          "og:image" = false) := by
  refine ⟨?_, ?_, ?_⟩
  · intro p
    obtain ⟨mu, u, t, d, im⟩ := p
    rcases im with _ | ⟨src | src, sz, w, h, mt⟩
    · left
      simp [encodeKeys_eq, contains_append, keysIf_contains, mem_keysIf]
    · left
      simp [encodeKeys_eq, contains_append, keysIf_contains, mem_keysIf, PreviewImageSource.encode]
    · right
      simp [encodeKeys_eq, contains_append, keysIf_contains, mem_keysIf, PreviewImageSource.encode]
  · intro mu u t d sz w h mt uri
    constructor <;>
      simp [encodeKeys_eq, contains_append, keysIf_contains, mem_keysIf, PreviewImageSource.encode]
  · intro mu u t d sz w h mt f
    constructor <;>
      simp [encodeKeys_eq, contains_append, keysIf_contains, mem_keysIf, PreviewImageSource.encode]

/-- C6 counterexample: `matched_url` is an optional field in this revision
(an `Option` without a skip attribute), yet encoding a value with
`matched_url` absent still emits the `matched_url` key, with a `null`
marker value. -/
theorem encode_absent_matched_url_emits_null_key :
    UrlPreview.encode (UrlPreview.canonical_url "https://matrix.org/") =
      [("matched_url", Value.null), ("og:url", Value.str "https://matrix.org/")] ∧
    (encodeKeys (UrlPreview.canonical_url "https://matrix.org/")).contains
        "matched_url" = true :=
  ⟨rfl, rfl⟩

/-- C6 amended: every optional field other than `matched_url` is omitted
from the encoded object when absent — canonical URL, title, description,
each image metadata field, and the whole image (whose absence suppresses
every image key) — and is never emitted as a null marker.  The
`matched_url` key alone is always emitted, as `null` when the field is
absent. -/
theorem encode_omits_absent_optionals :
    (∀ (mu t d : Option String) (im : Option PreviewImage),
      (encodeKeys ⟨mu, none, t, d, im⟩).contains "og:url" = false) ∧
    (∀ (mu u d : Option String) (im : Option PreviewImage),
      (encodeKeys ⟨mu, u, none, d, im⟩).contains "og:title" = false) ∧
    (∀ (mu u t : Option String) (im : Option PreviewImage),
      (encodeKeys ⟨mu, u, t, none, im⟩).contains "og:description" = false) ∧
    (∀ mu u t d : Option String,
      (encodeKeys ⟨mu, u, t, d, none⟩).contains "og:image" = false ∧
      (encodeKeys ⟨mu, u, t, d, none⟩).contains "og:image:url" = false ∧
      (encodeKeys ⟨mu, u, t, d, none⟩).contains "beeper:image:encryption" = false ∧
      (encodeKeys ⟨mu, u, t, d, none⟩).contains "matrix:image:size" = false ∧
      (encodeKeys ⟨mu, u, t, d, none⟩).contains "og:image:width" = false ∧
      (encodeKeys ⟨mu, u, t, d, none⟩).contains "og:image:height" = false ∧
      (encodeKeys ⟨mu, u, t, d, none⟩).contains "og:image:type" = false) ∧
    (∀ (mu u t d : Option String) (src : PreviewImageSource) (w h : Option Nat)
        (mt : Option String),
      (encodeKeys ⟨mu, u, t, d, some ⟨src, none, w, h, mt⟩⟩).contains
        "matrix:image:size" = false) ∧
    (∀ (mu u t d : Option String) (src : PreviewImageSource) (sz h : Option Nat)
        (mt : Option String),
      (encodeKeys ⟨mu, u, t, d, some ⟨src, sz, none, h, mt⟩⟩).contains
        "og:image:width" = false) ∧
    (∀ (mu u t d : Option String) (src : PreviewImageSource) (sz w : Option Nat)
        (mt : Option String),
      (encodeKeys ⟨mu, u, t, d, some ⟨src, sz, w, none, mt⟩⟩).contains
        "og:image:height" = false) ∧
    (∀ (mu u t d : Option String) (src : PreviewImageSource) (sz w h : Option Nat),
      (encodeKeys ⟨mu, u, t, d, some ⟨src, sz, w, h, none⟩⟩).contains
        "og:image:type" = false) ∧
    (∀ (u t d : Option String) (im : Option PreviewImage),
      (UrlPreview.encode ⟨none, u, t, d, im⟩).head? =
        some ("matched_url", Value.null)) := by
  refine ⟨?_, ?_, ?_, ?_, ?_, ?_, ?_, ?_, fun u t d im => rfl⟩
  · intro mu t d im
    rcases im with _ | ⟨src | src, sz, w, h, mt⟩ <;>
      simp [encodeKeys_eq, contains_append, keysIf_contains, mem_keysIf, PreviewImageSource.encode]
  · intro mu u d im
    rcases im with _ | ⟨src | src, sz, w, h, mt⟩ <;>
      simp [encodeKeys_eq, contains_append, keysIf_contains, mem_keysIf, PreviewImageSource.encode]
  · intro mu u t im
    rcases im with _ | ⟨src | src, sz, w, h, mt⟩ <;>
      simp [encodeKeys_eq, contains_append, keysIf_contains, mem_keysIf, PreviewImageSource.encode]
  · intro mu u t d
    refine ⟨?_, ?_, ?_, ?_, ?_, ?_, ?_⟩ <;>
      simp [encodeKeys_eq, contains_append, keysIf_contains, mem_keysIf]
  · intro mu u t d src w h mt
    cases src <;>
      simp [encodeKeys_eq, contains_append, keysIf_contains, mem_keysIf, PreviewImageSource.encode]
  · intro mu u t d src sz h mt
    cases src <;>
      simp [encodeKeys_eq, contains_append, keysIf_contains, mem_keysIf, PreviewImageSource.encode]
  · intro mu u t d src sz w mt
    cases src <;>
      simp [encodeKeys_eq, contains_append, keysIf_contains, mem_keysIf, PreviewImageSource.encode]
  · intro mu u t d src sz w h
    cases src <;>
      simp [encodeKeys_eq, contains_append, keysIf_contains, mem_keysIf, PreviewImageSource.encode]

/-- C7 counterexample: encode emits the matched URL under the plain field
name `matched_url`, not under the namespaced key `matrix:matched_url`. -/
theorem encode_matched_url_key_not_namespaced :
    encodeKeys (UrlPreview.matchedUrl "https://matrix.org") = ["matched_url"] ∧
    (encodeKeys (UrlPreview.matchedUrl "https://matrix.org")).contains
        "matrix:matched_url" = false :=
  ⟨rfl, rfl⟩

/-- C7 amended: encode always emits the matched URL under the single key
`matched_url` (the first emitted entry, never `matrix:matched_url`), while
decode accepts both the `matched_url` spelling and the `matrix:matched_url`
alias for the same logical field. -/
theorem matched_url_key_encode_decode :
    (∀ p : UrlPreview,
      (UrlPreview.encode p).head? =
        some ("matched_url", encodeOptStrField p.matched_url)) ∧
    (∀ p : UrlPreview, (encodeKeys p).contains "matrix:matched_url" = false) ∧
    (∀ s : String, UrlPreview.decode [("matched_url", Value.str s)] =
      Except.ok ⟨some s, none, none, none, none⟩) ∧
    (∀ s : String, UrlPreview.decode [("matrix:matched_url", Value.str s)] =
      Except.ok ⟨some s, none, none, none, none⟩) := by
  refine ⟨fun p => rfl, ?_, fun s => rfl, fun s => rfl⟩
  intro p
  obtain ⟨mu, u, t, d, im⟩ := p
  rcases im with _ | ⟨src | src, sz, w, h, mt⟩ <;>
    simp [encodeKeys_eq, contains_append, keysIf_contains, mem_keysIf, PreviewImageSource.encode]

end RumaUrlPreview
